import Mathlib

/-!
Verification of the stake-tracker API core (server.js): price cache and
rate fetching, cashout USD normalization, idempotent ingestion upserts,
account summary aggregation, and pagination clamping.

Numbers are modelled as rationals; JS absent/undefined values as Option.
-/

namespace Stake

/-- Outcome of one outbound price-provider request for a provider id:
a non-2xx HTTP status, a body that fails to parse as JSON, or a parsed
body whose usd field is the given value (none when missing or not a
number). -/
inductive FetchResult
  | httpError (status : Nat)
  | malformedBody
  | fieldValue (v : Option ℚ)
deriving DecidableEq

/-- JS String.prototype.toLowerCase, modelled character by character
(the symbols and labels involved are ASCII). -/
def jsToLower (s : String) : String :=
  String.mk (s.data.map Char.toLower)

/-- The fixed symbol-to-provider-id mapping COINGECKO_IDS of server.js. -/
def COINGECKO_IDS (s : String) : Option String :=
  if s = "ltc" then some "litecoin"
  else if s = "btc" then some "bitcoin"
  else if s = "eth" then some "ethereum"
  else if s = "doge" then some "dogecoin"
  else if s = "bch" then some "bitcoin-cash"
  else if s = "xrp" then some "ripple"
  else if s = "usdt" then some "tether"
  else if s = "usdc" then some "usd-coin"
  else none

/-- The in-process price cache: symbol to (price, fetch timestamp ms). -/
abbrev PriceCache := List (String × ℚ × ℤ)

/-- priceCache.get(sym). -/
def cacheGet (c : PriceCache) (k : String) : Option (ℚ × ℤ) :=
  (c.find? (fun e => e.1 == k)).map (fun e => e.2)

/-- priceCache.set(sym, { price, ts }): overwrite the entry if present,
otherwise add one. -/
def cacheSet (c : PriceCache) (k : String) (p : ℚ) (ts : ℤ) : PriceCache :=
  match c with
  | [] => [(k, p, ts)]
  | e :: rest => if e.1 = k then (k, p, ts) :: rest else e :: cacheSet rest k p ts

/-- True when the cache holds an entry for the symbol whose age is
strictly below the freshness window. -/
def cacheFresh (c : PriceCache) (k : String) (now ttl : ℤ) : Bool :=
  match cacheGet c k with
  | some pts => decide (now - pts.2 < ttl)
  | none => false

/-- The miss path of getUsdRate: issue the outbound request; on a parsed
numeric usd field store it in the cache and return it, otherwise return
null.  The Bool records that an outbound request was issued. -/
def getUsdRateFetch (fetch : String → FetchResult) (now : ℤ) (st : PriceCache)
    (sym pid : String) : Option ℚ × PriceCache × Bool :=
  match fetch pid with
  | FetchResult.fieldValue (some price) => (some price, cacheSet st sym price now, true)
  | _ => (none, st, true)

/-- getUsdRate(symbol) of server.js.  `fetch` gives the provider's response
for a provider id, `now` is Date.now(), `ttl` the freshness window.
Returns (rate or null, updated cache, whether an outbound request was
issued). -/
def getUsdRate (fetch : String → FetchResult) (now ttl : ℤ) (st : PriceCache) :
    Option String → Option ℚ × PriceCache × Bool
  | none => (none, st, false)
  | some s0 =>
    if s0 = "" then (none, st, false)
    else
      match COINGECKO_IDS (jsToLower s0) with
      | none => (none, st, false)
      | some pid =>
        match cacheGet st (jsToLower s0) with
        | some pts =>
          if now - pts.2 < ttl then (some pts.1, st, false)
          else getUsdRateFetch fetch now st (jsToLower s0) pid
        | none => getUsdRateFetch fetch now st (jsToLower s0) pid

/-- A stored cashout document (CashoutSchema).  Fields that the schema
leaves optional are Options; rawJson is kept opaque as a String. -/
structure CashoutDoc where
  id : String
  accountId : Option String
  game : Option String
  currency : Option String
  amount : Option ℚ
  payout : Option ℚ
  amountMultiplier : Option ℚ
  payoutMultiplier : Option ℚ
  amountUSD : Option ℚ
  payoutUSD : Option ℚ
  updatedAt : Option String
  capturedAt : ℤ
  rawJson : String
deriving DecidableEq

/-- The response shape produced by normalizeCashoutToUSD: the document
with amount/payout now in USD and the crypto originals preserved under
amountCrypto/payoutCrypto. -/
structure NormalizedCashout where
  id : String
  accountId : Option String
  game : Option String
  currency : Option String
  amount : ℚ
  payout : ℚ
  amountCrypto : ℚ
  payoutCrypto : ℚ
  amountMultiplier : Option ℚ
  payoutMultiplier : Option ℚ
  amountUSD : Option ℚ
  payoutUSD : Option ℚ
  updatedAt : Option String
  capturedAt : ℤ
  rawJson : String
deriving DecidableEq

/-- Build the output record of normalizeCashoutToUSD: copy every field of
the input, overwrite amount/payout with the resolved USD values, and add
the crypto originals (Number(x || 0)). -/
def mkNorm (d : CashoutDoc) (a p : ℚ) : NormalizedCashout :=
  { id := d.id, accountId := d.accountId, game := d.game, currency := d.currency
  , amount := a, payout := p
  , amountCrypto := d.amount.getD 0, payoutCrypto := d.payout.getD 0
  , amountMultiplier := d.amountMultiplier, payoutMultiplier := d.payoutMultiplier
  , amountUSD := d.amountUSD, payoutUSD := d.payoutUSD
  , updatedAt := d.updatedAt, capturedAt := d.capturedAt, rawJson := d.rawJson }

/-- normalizeCashoutToUSD(doc) of server.js.  A null document is returned
as is.  Stored numeric USD fields take precedence; otherwise a rate is
requested for the document's currency and missing USD fields become
cryptoValue * rate, or 0 when no rate is available. -/
def normalizeCashoutToUSD (fetch : String → FetchResult) (now ttl : ℤ)
    (st : PriceCache) : Option CashoutDoc → Option NormalizedCashout × PriceCache
  | none => (none, st)
  | some d =>
    match d.amountUSD, d.payoutUSD with
    | some a, some p => (some (mkNorm d a p), st)
    | aU, pU =>
      let res := getUsdRate fetch now ttl st d.currency
      match res.1 with
      | some r =>
        (some (mkNorm d (aU.getD (d.amount.getD 0 * r)) (pU.getD (d.payout.getD 0 * r))), res.2.1)
      | none => (some (mkNorm d (aU.getD 0) (pU.getD 0)), res.2.1)

end Stake

namespace Stake

/-- C1: a record that already carries numeric amountUSD and payoutUSD
normalizes to exactly those stored values, for every cache state and
every fetch behaviour; the cache is left untouched. -/
theorem C1_stored_usd_precedence (fetch : String → FetchResult) (now ttl : ℤ)
    (st : PriceCache) (d : CashoutDoc) (a p : ℚ)
    (hA : d.amountUSD = some a) (hP : d.payoutUSD = some p) :
    (normalizeCashoutToUSD fetch now ttl st (some d)).1.map NormalizedCashout.amount = some a
    ∧ (normalizeCashoutToUSD fetch now ttl st (some d)).1.map NormalizedCashout.payout = some p
    ∧ (normalizeCashoutToUSD fetch now ttl st (some d)).2 = st := by
  cases d
  cases hA
  cases hP
  simp [normalizeCashoutToUSD, mkNorm]

/-- Witness for C1 at stored amountUSD = 10, payoutUSD = 20. -/
theorem C1_stored_usd_precedence_witness :
    (normalizeCashoutToUSD (fun _ => FetchResult.malformedBody) 0 60000 []
        (some { id := "c1", accountId := some "a1", game := some "mines"
              , currency := some "ltc", amount := some 1, payout := some 2
              , amountMultiplier := some 1, payoutMultiplier := some 2
              , amountUSD := some 10, payoutUSD := some 20
              , updatedAt := none, capturedAt := 0, rawJson := "r" })).1.map
      NormalizedCashout.amount = some 10 := by
  exact (C1_stored_usd_precedence (fun _ => FetchResult.malformedBody) 0 60000 []
    { id := "c1", accountId := some "a1", game := some "mines"
    , currency := some "ltc", amount := some 1, payout := some 2
    , amountMultiplier := some 1, payoutMultiplier := some 2
    , amountUSD := some 10, payoutUSD := some 20
    , updatedAt := none, capturedAt := 0, rawJson := "r" } 10 20 rfl rfl).1

/-- C2: a record with no stored numeric USD fields whose currency resolves
to a rate r normalizes each USD field to the crypto value times r. -/
theorem C2_rate_fallback (fetch : String → FetchResult) (now ttl : ℤ)
    (st : PriceCache) (d : CashoutDoc) (r : ℚ)
    (hA : d.amountUSD = none) (hP : d.payoutUSD = none)
    (hr : (getUsdRate fetch now ttl st d.currency).1 = some r) :
    (normalizeCashoutToUSD fetch now ttl st (some d)).1.map NormalizedCashout.amount
      = some (d.amount.getD 0 * r)
    ∧ (normalizeCashoutToUSD fetch now ttl st (some d)).1.map NormalizedCashout.payout
      = some (d.payout.getD 0 * r) := by
  cases d
  cases hA
  cases hP
  simp only [normalizeCashoutToUSD] at *
  rw [hr]
  simp [mkNorm]

/-- Witness for C2: currency ltc, crypto amount 2, rate 50 gives 100 USD. -/
theorem C2_rate_fallback_witness :
    (normalizeCashoutToUSD
        (fun pid => if pid = "litecoin" then FetchResult.fieldValue (some 50)
                    else FetchResult.fieldValue none) 0 60000 []
        (some { id := "c2", accountId := some "a1", game := some "mines"
              , currency := some "ltc", amount := some 2, payout := some 4
              , amountMultiplier := some 1, payoutMultiplier := some 2
              , amountUSD := none, payoutUSD := none
              , updatedAt := none, capturedAt := 0, rawJson := "r" })).1.map
      NormalizedCashout.amount = some 100 := by
  have h := (C2_rate_fallback
    (fun pid => if pid = "litecoin" then FetchResult.fieldValue (some 50)
                else FetchResult.fieldValue none) 0 60000 []
    { id := "c2", accountId := some "a1", game := some "mines"
    , currency := some "ltc", amount := some 2, payout := some 4
    , amountMultiplier := some 1, payoutMultiplier := some 2
    , amountUSD := none, payoutUSD := none
    , updatedAt := none, capturedAt := 0, rawJson := "r" } 50 rfl rfl (by decide)).1
  rw [h]
  norm_num

end Stake

namespace Stake

/-- The outbound path always reports that a request was issued. -/
theorem getUsdRateFetch_flag (fetch : String → FetchResult) (now : ℤ)
    (st : PriceCache) (sym pid : String) :
    (getUsdRateFetch fetch now st sym pid).2.2 = true := by
  unfold getUsdRateFetch
  rcases fetch pid with s | _ | v
  · rfl
  · rfl
  · rcases v with _ | p
    · rfl
    · rfl

/-- Reduction of cacheFresh at a present entry. -/
theorem cacheFresh_some (c : PriceCache) (k : String) (now ttl : ℤ) (p : ℚ) (ts : ℤ)
    (h : cacheGet c k = some (p, ts)) :
    cacheFresh c k now ttl = decide (now - ts < ttl) := by
  unfold cacheFresh
  rw [h]

/-- Reduction of cacheFresh at a missing entry. -/
theorem cacheFresh_none (c : PriceCache) (k : String) (now ttl : ℤ)
    (h : cacheGet c k = none) : cacheFresh c k now ttl = false := by
  unfold cacheFresh
  rw [h]

/-- Reduction of getUsdRate on a mapped symbol with a fresh cache entry. -/
theorem getUsdRate_hit (fetch : String → FetchResult) (now ttl : ℤ)
    (st : PriceCache) (s pid : String) (p : ℚ) (ts : ℤ)
    (hs : ¬ s = "") (hid : COINGECKO_IDS (jsToLower s) = some pid)
    (hgc : cacheGet st (jsToLower s) = some (p, ts)) (hfr : now - ts < ttl) :
    getUsdRate fetch now ttl st (some s) = (some p, st, false) := by
  simp only [getUsdRate]
  rw [if_neg hs, hid, hgc]
  show (if now - ts < ttl then ((some p : Option ℚ), st, false)
        else getUsdRateFetch fetch now st (jsToLower s) pid)
      = ((some p : Option ℚ), st, false)
  rw [if_pos hfr]

/-- Reduction of getUsdRate on a mapped symbol with a stale cache entry. -/
theorem getUsdRate_stale (fetch : String → FetchResult) (now ttl : ℤ)
    (st : PriceCache) (s pid : String) (p : ℚ) (ts : ℤ)
    (hs : ¬ s = "") (hid : COINGECKO_IDS (jsToLower s) = some pid)
    (hgc : cacheGet st (jsToLower s) = some (p, ts)) (hfr : ¬ now - ts < ttl) :
    getUsdRate fetch now ttl st (some s) = getUsdRateFetch fetch now st (jsToLower s) pid := by
  simp only [getUsdRate]
  rw [if_neg hs, hid, hgc]
  show (if now - ts < ttl then ((some p : Option ℚ), st, false)
        else getUsdRateFetch fetch now st (jsToLower s) pid)
      = getUsdRateFetch fetch now st (jsToLower s) pid
  rw [if_neg hfr]

/-- Reduction of getUsdRate on a mapped symbol missing from the cache. -/
theorem getUsdRate_miss (fetch : String → FetchResult) (now ttl : ℤ)
    (st : PriceCache) (s pid : String)
    (hs : ¬ s = "") (hid : COINGECKO_IDS (jsToLower s) = some pid)
    (hgc : cacheGet st (jsToLower s) = none) :
    getUsdRate fetch now ttl st (some s) = getUsdRateFetch fetch now st (jsToLower s) pid := by
  simp only [getUsdRate]
  rw [if_neg hs, hid, hgc]

/-- C3: the cache never serves a stale quote.  For a mapped, nonempty
symbol: no outbound request is issued exactly when the cache holds a
fresh entry; a fresh entry is returned unchanged with no request; once
the window has elapsed a request is issued and, on a successful fetch,
the entry is overwritten with the new rate and the current time; a
missing entry also forces a request. -/
theorem C3_cache_freshness (fetch : String → FetchResult) (now ttl : ℤ)
    (st : PriceCache) (s pid : String)
    (hs : ¬ s = "") (hid : COINGECKO_IDS (jsToLower s) = some pid) :
    (((getUsdRate fetch now ttl st (some s)).2.2 = false)
        ↔ cacheFresh st (jsToLower s) now ttl = true)
    ∧ (∀ p ts, cacheGet st (jsToLower s) = some (p, ts) → now - ts < ttl →
        getUsdRate fetch now ttl st (some s) = (some p, st, false))
    ∧ (∀ p ts, cacheGet st (jsToLower s) = some (p, ts) → ttl ≤ now - ts →
        ((getUsdRate fetch now ttl st (some s)).2.2 = true
          ∧ ∀ r, fetch pid = FetchResult.fieldValue (some r) →
              getUsdRate fetch now ttl st (some s)
                = (some r, cacheSet st (jsToLower s) r now, true)))
    ∧ (cacheGet st (jsToLower s) = none →
        (getUsdRate fetch now ttl st (some s)).2.2 = true) := by
  rcases hgc : cacheGet st (jsToLower s) with _ | ⟨p0, ts0⟩
  · refine ⟨?_, ?_, ?_, ?_⟩
    · rw [getUsdRate_miss fetch now ttl st s pid hs hid hgc,
        getUsdRateFetch_flag, cacheFresh_none st (jsToLower s) now ttl hgc]
      simp
    · intro p ts h
      cases h
    · intro p ts h
      cases h
    · intro _
      rw [getUsdRate_miss fetch now ttl st s pid hs hid hgc]
      exact getUsdRateFetch_flag ..
  · by_cases hfr : now - ts0 < ttl
    · refine ⟨?_, ?_, ?_, ?_⟩
      · rw [getUsdRate_hit fetch now ttl st s pid p0 ts0 hs hid hgc hfr,
          cacheFresh_some st (jsToLower s) now ttl p0 ts0 hgc]
        simp [hfr]
      · intro p ts h _
        cases h
        exact getUsdRate_hit fetch now ttl st s pid p0 ts0 hs hid hgc hfr
      · intro p ts h hold
        cases h
        omega
      · intro h
        cases h
    · refine ⟨?_, ?_, ?_, ?_⟩
      · rw [getUsdRate_stale fetch now ttl st s pid p0 ts0 hs hid hgc hfr,
          getUsdRateFetch_flag, cacheFresh_some st (jsToLower s) now ttl p0 ts0 hgc]
        simp [hfr]
      · intro p ts h hlt
        cases h
        omega
      · intro p ts h _
        refine ⟨?_, ?_⟩
        · rw [getUsdRate_stale fetch now ttl st s pid p0 ts0 hs hid hgc hfr]
          exact getUsdRateFetch_flag ..
        · intro r hr
          rw [getUsdRate_stale fetch now ttl st s pid p0 ts0 hs hid hgc hfr]
          unfold getUsdRateFetch
          rw [hr]
      · intro h
        cases h

/-- Witness for C3: symbol ltc with a fresh entry (price 50, age 10 ms,
window 60000 ms) is served from the cache with no outbound request. -/
theorem C3_cache_freshness_witness :
    getUsdRate (fun _ => FetchResult.malformedBody) 10 60000 [("ltc", 50, 0)] (some "ltc")
      = (some 50, [("ltc", 50, 0)], false) := by
  exact (C3_cache_freshness (fun _ => FetchResult.malformedBody) 10 60000
    [("ltc", 50, 0)] "ltc" "litecoin" (by decide) (by decide)).2.1 50 0 (by decide) (by decide)

end Stake

namespace Stake

/-- C4: pricing failures are always absorbed.  A null, empty or unmapped
symbol yields null with no outbound request; for a mapped symbol with no
fresh cache entry, a non-2xx response, a malformed body, or a missing or
non-numeric usd field all yield null; and a record with no stored USD
whose currency yields no rate normalizes with both USD fields defaulted
to 0. -/
theorem C4_failures_absorbed :
    (∀ (fetch : String → FetchResult) (now ttl : ℤ) (st : PriceCache),
        getUsdRate fetch now ttl st none = (none, st, false))
    ∧ (∀ (fetch : String → FetchResult) (now ttl : ℤ) (st : PriceCache),
        getUsdRate fetch now ttl st (some "") = (none, st, false))
    ∧ (∀ (fetch : String → FetchResult) (now ttl : ℤ) (st : PriceCache) (s : String),
        ¬ s = "" → COINGECKO_IDS (jsToLower s) = none →
        getUsdRate fetch now ttl st (some s) = (none, st, false))
    ∧ (∀ (fetch : String → FetchResult) (now ttl : ℤ) (st : PriceCache) (s pid : String),
        ¬ s = "" → COINGECKO_IDS (jsToLower s) = some pid →
        cacheFresh st (jsToLower s) now ttl = false →
        (fetch pid = FetchResult.malformedBody
          ∨ (∃ status, fetch pid = FetchResult.httpError status)
          ∨ fetch pid = FetchResult.fieldValue none) →
        getUsdRate fetch now ttl st (some s) = (none, st, true))
    ∧ (∀ (fetch : String → FetchResult) (now ttl : ℤ) (st : PriceCache) (d : CashoutDoc),
        d.amountUSD = none → d.payoutUSD = none →
        (getUsdRate fetch now ttl st d.currency).1 = none →
        (normalizeCashoutToUSD fetch now ttl st (some d)).1.map NormalizedCashout.amount = some 0
        ∧ (normalizeCashoutToUSD fetch now ttl st (some d)).1.map NormalizedCashout.payout
            = some 0) := by
  refine ⟨?_, ?_, ?_, ?_, ?_⟩
  · intro fetch now ttl st
    rfl
  · intro fetch now ttl st
    rfl
  · intro fetch now ttl st s hs hid
    simp only [getUsdRate]
    rw [if_neg hs, hid]
  · intro fetch now ttl st s pid hs hid hstale hfail
    have hfetch : getUsdRateFetch fetch now st (jsToLower s) pid = (none, st, true) := by
      unfold getUsdRateFetch
      rcases hfail with h | ⟨status, h⟩ | h <;> rw [h]
    rcases hgc : cacheGet st (jsToLower s) with _ | ⟨p0, ts0⟩
    · rw [getUsdRate_miss fetch now ttl st s pid hs hid hgc, hfetch]
    · have hfr : ¬ now - ts0 < ttl := by
        have := cacheFresh_some st (jsToLower s) now ttl p0 ts0 hgc
        rw [hstale] at this
        simpa using this.symm
      rw [getUsdRate_stale fetch now ttl st s pid p0 ts0 hs hid hgc hfr, hfetch]
  · intro fetch now ttl st d hA hP hr
    cases d
    cases hA
    cases hP
    simp only [normalizeCashoutToUSD] at *
    rw [hr]
    simp [mkNorm]

/-- Witness for C4: the unmapped symbol zzz yields null with no request,
and a record in currency zzz with no stored USD normalizes to 0 USD. -/
theorem C4_failures_absorbed_witness :
    getUsdRate (fun _ => FetchResult.fieldValue (some 3)) 0 60000 [] (some "zzz")
      = (none, [], false)
    ∧ (normalizeCashoutToUSD (fun _ => FetchResult.fieldValue (some 3)) 0 60000 []
        (some { id := "c4", accountId := some "a1", game := some "mines"
              , currency := some "zzz", amount := some 2, payout := some 4
              , amountMultiplier := some 1, payoutMultiplier := some 2
              , amountUSD := none, payoutUSD := none
              , updatedAt := none, capturedAt := 0, rawJson := "r" })).1.map
        NormalizedCashout.amount = some 0 := by
  constructor
  · exact C4_failures_absorbed.2.2.1 (fun _ => FetchResult.fieldValue (some 3)) 0 60000 []
      "zzz" (by decide) (by decide)
  · exact (C4_failures_absorbed.2.2.2.2 (fun _ => FetchResult.fieldValue (some 3)) 0 60000 []
      { id := "c4", accountId := some "a1", game := some "mines"
      , currency := some "zzz", amount := some 2, payout := some 4
      , amountMultiplier := some 1, payoutMultiplier := some 2
      , amountUSD := none, payoutUSD := none
      , updatedAt := none, capturedAt := 0, rawJson := "r" } rfl rfl (by decide)).1

end Stake

namespace Stake

/-- JS truthiness of a possibly absent string: null, undefined and the
empty string are falsy. -/
def strTruthy : Option String → Bool
  | none => false
  | some s => !(s == "")

/-- JS a || b on possibly absent strings: a when truthy, otherwise b. -/
def jsTruthyOr (a b : Option String) : Option String :=
  if strTruthy a then a else b

/-- JS a ?? b on possibly absent numbers: a when present, otherwise b. -/
def jsCoal (a b : Option ℚ) : Option ℚ :=
  match a with
  | some x => some x
  | none => b

/-- A stored account document (AccountSchema). -/
structure Account where
  id : String
  name : Option String
deriving DecidableEq

/-- The whole persisted state: the two collections, in insertion order. -/
structure DB where
  accounts : List Account
  cashouts : List CashoutDoc
deriving DecidableEq

/-- Account.updateOne({id}, {$set:{name}}, {upsert:true}): refresh the
name of the first document with this id, or insert a new one. -/
def upsertAccount (accs : List Account) (aid : String) (nm : Option String) : List Account :=
  match accs with
  | [] => [{ id := aid, name := nm }]
  | a :: rest =>
    if a.id = aid then { a with name := nm } :: rest
    else a :: upsertAccount rest aid nm

/-- The $set payload of a cashout upsert, as computed by the handlers
before persistence. -/
structure CashoutFields where
  accountId : String
  game : Option String
  currency : Option String
  amount : ℚ
  payout : ℚ
  amountMultiplier : ℚ
  payoutMultiplier : ℚ
  amountUSD : Option ℚ
  payoutUSD : Option ℚ
  updatedAt : Option String
  rawJson : String
  capturedAt : ℤ
deriving DecidableEq

/-- The freshly inserted document for a given id ($setOnInsert keeps the
id; the USD keys are undefined when absent and are stripped from the
update, so the inserted document simply lacks them). -/
def applyFields (cid : String) (f : CashoutFields) : CashoutDoc :=
  { id := cid, accountId := some f.accountId, game := f.game, currency := f.currency
  , amount := some f.amount, payout := some f.payout
  , amountMultiplier := some f.amountMultiplier, payoutMultiplier := some f.payoutMultiplier
  , amountUSD := f.amountUSD, payoutUSD := f.payoutUSD
  , updatedAt := f.updatedAt, capturedAt := f.capturedAt, rawJson := f.rawJson }

/-- Updating an existing document with a $set payload: every
always-defined key is overwritten; the USD keys are undefined when the
payload omits them, and undefined keys are stripped from the update, so
the previously stored USD values are then retained. -/
def applyFieldsUpdate (old : CashoutDoc) (cid : String) (f : CashoutFields) : CashoutDoc :=
  { id := cid, accountId := some f.accountId, game := f.game, currency := f.currency
  , amount := some f.amount, payout := some f.payout
  , amountMultiplier := some f.amountMultiplier, payoutMultiplier := some f.payoutMultiplier
  , amountUSD := jsCoal f.amountUSD old.amountUSD
  , payoutUSD := jsCoal f.payoutUSD old.payoutUSD
  , updatedAt := f.updatedAt, capturedAt := f.capturedAt, rawJson := f.rawJson }

/-- Cashout.updateOne({id}, {$setOnInsert:{id}, $set:fields}, {upsert:true}):
update the first document with this id (undefined USD keys stripped), or
insert a new document at the end. -/
def upsertCashout (cs : List CashoutDoc) (cid : String) (f : CashoutFields) : List CashoutDoc :=
  match cs with
  | [] => [applyFields cid f]
  | d :: rest =>
    if d.id = cid then applyFieldsUpdate d cid f :: rest
    else d :: upsertCashout rest cid f

/-- The minesCashout part of the nested ingestion payload. -/
structure MinesCashout where
  id : Option String
  game : Option String
  currency : Option String
  amount : Option ℚ
  payout : Option ℚ
  amountMultiplier : Option ℚ
  payoutMultiplier : Option ℚ
  amountUSD : Option ℚ
  payoutUSD : Option ℚ
  updatedAt : Option String
deriving DecidableEq, Inhabited

/-- The user part of an ingestion payload. -/
structure UserInfo where
  id : Option String
  name : Option String
deriving DecidableEq, Inhabited

/-- The nested payload accepted by POST /api/cashouts; raw stands for the
serialized request body stored as rawJson. -/
structure Body1 where
  minesCashout : Option MinesCashout
  user : Option UserInfo
  raw : String
deriving DecidableEq

/-- minesCashout?.id of the nested payload. -/
def body1CashoutId (b : Body1) : Option String :=
  b.minesCashout.bind MinesCashout.id

/-- user?.id of the nested payload. -/
def body1AccountId (b : Body1) : Option String :=
  b.user.bind UserInfo.id

/-- user.name ?? null of the nested payload. -/
def body1AccountName (b : Body1) : Option String :=
  b.user.bind UserInfo.name

/-- The $set fields computed by the POST /api/cashouts handler. -/
def body1Fields (now : ℤ) (b : Body1) : CashoutFields :=
  let mc := b.minesCashout.getD default
  { accountId := (body1AccountId b).getD ""
  , game := mc.game.map jsToLower
  , currency := mc.currency.map jsToLower
  , payout := mc.payout.getD 0
  , amount := mc.amount.getD 0
  , payoutMultiplier := mc.payoutMultiplier.getD 0
  , amountMultiplier := mc.amountMultiplier.getD 0
  , payoutUSD := mc.payoutUSD
  , amountUSD := mc.amountUSD
  , updatedAt := mc.updatedAt
  , rawJson := b.raw
  , capturedAt := now }

/-- The preview part of the flattened compatibility payload. -/
structure PreviewBody where
  id : Option String
  user : Option UserInfo
  game : Option String
  currency : Option String
  amount : Option ℚ
  payout : Option ℚ
  amountMultiplier : Option ℚ
  payoutMultiplier : Option ℚ
  updatedAt : Option String
deriving DecidableEq, Inhabited

/-- The flattened payload accepted by POST /api/cashout. -/
structure Body2 where
  id : Option String
  cashoutId : Option String
  preview : Option PreviewBody
  accountId : Option String
  user : Option UserInfo
  accountName : Option String
  game : Option String
  currency : Option String
  amount : Option ℚ
  payout : Option ℚ
  amountMultiplier : Option ℚ
  payoutMultiplier : Option ℚ
  amountUSD : Option ℚ
  payoutUSD : Option ℚ
  updatedAt : Option String
  raw : String
deriving DecidableEq

/-- flat.id = b.id || b.cashoutId || b?.preview?.id. -/
def body2CashoutId (b : Body2) : Option String :=
  jsTruthyOr (jsTruthyOr b.id b.cashoutId) (b.preview.bind PreviewBody.id)

/-- flat.accountId = b.accountId || b?.user?.id || b?.preview?.user?.id. -/
def body2AccountId (b : Body2) : Option String :=
  jsTruthyOr (jsTruthyOr b.accountId (b.user.bind UserInfo.id))
    (b.preview.bind (fun p => p.user.bind UserInfo.id))

/-- flat.accountName = b.accountName || b?.user?.name || b?.preview?.user?.name. -/
def body2AccountName (b : Body2) : Option String :=
  jsTruthyOr (jsTruthyOr b.accountName (b.user.bind UserInfo.name))
    (b.preview.bind (fun p => p.user.bind UserInfo.name))

/-- The $set fields computed by the POST /api/cashout handler: the
flattened reconciliation of server.js. -/
def body2Fields (now : ℤ) (b : Body2) : CashoutFields :=
  { accountId := (body2AccountId b).getD ""
  , game := (jsTruthyOr (jsTruthyOr b.game (b.preview.bind PreviewBody.game))
      (some "mines")).map jsToLower
  , currency := (jsTruthyOr (jsTruthyOr b.currency (b.preview.bind PreviewBody.currency))
      (some "")).map jsToLower
  , payout := (jsCoal b.payout (b.preview.bind PreviewBody.payout)).getD 0
  , amount := (jsCoal b.amount (b.preview.bind PreviewBody.amount)).getD 0
  , payoutMultiplier := (jsCoal b.payoutMultiplier
      (b.preview.bind PreviewBody.payoutMultiplier)).getD 0
  , amountMultiplier := (jsCoal b.amountMultiplier
      (b.preview.bind PreviewBody.amountMultiplier)).getD 0
  , payoutUSD := b.payoutUSD
  , amountUSD := b.amountUSD
  , updatedAt := jsTruthyOr (jsTruthyOr b.updatedAt (b.preview.bind PreviewBody.updatedAt)) none
  , rawJson := b.raw
  , capturedAt := now }

/-- One ingestion request: either accepted payload shape. -/
inductive IngestReq
  | nested (b : Body1)
  | flatShape (b : Body2)
deriving DecidableEq

/-- The handler's reply: ok, or a 400 validation error. -/
inductive IngestResult
  | ok
  | badRequest
deriving DecidableEq

/-- The external cashout id a request carries (validated for truthiness). -/
def reqCashoutId : IngestReq → Option String
  | IngestReq.nested b => body1CashoutId b
  | IngestReq.flatShape b => body2CashoutId b

/-- The account id a request carries. -/
def reqAccountId : IngestReq → Option String
  | IngestReq.nested b => body1AccountId b
  | IngestReq.flatShape b => body2AccountId b

/-- The account display name a request carries. -/
def reqAccountName : IngestReq → Option String
  | IngestReq.nested b => body1AccountName b
  | IngestReq.flatShape b => body2AccountName b

/-- The cashout $set fields a request produces. -/
def reqFields (now : ℤ) : IngestReq → CashoutFields
  | IngestReq.nested b => body1Fields now b
  | IngestReq.flatShape b => body2Fields now b

/-- The validation both handlers run before touching the store. -/
def reqValid (r : IngestReq) : Bool :=
  strTruthy (reqCashoutId r) && strTruthy (reqAccountId r)

/-- Either ingestion handler: validate, then upsert the account and the
cashout; on a validation failure report 400 and leave the store as is. -/
def ingest (now : ℤ) (db : DB) (r : IngestReq) : IngestResult × DB :=
  if reqValid r then
    (IngestResult.ok
    , { accounts := upsertAccount db.accounts ((reqAccountId r).getD "") (reqAccountName r)
      , cashouts := upsertCashout db.cashouts ((reqCashoutId r).getD "") (reqFields now r) })
  else (IngestResult.badRequest, db)

end Stake

namespace Stake

/-- Number of stored cashout documents carrying a given external id. -/
def countId (cs : List CashoutDoc) (c : String) : Nat :=
  (cs.filter (fun d => d.id == c)).length

/-- Upsert into a collection with no document carrying the id: the
documents with that id afterwards are exactly the fresh insert. -/
theorem upsert_filter_insert (cs : List CashoutDoc) (c : String) (f : CashoutFields)
    (h : countId cs c = 0) :
    (upsertCashout cs c f).filter (fun d => d.id == c) = [applyFields c f] := by
  induction cs with
  | nil =>
    simp [upsertCashout, applyFields]
  | cons d rest ih =>
    by_cases hd : d.id = c
    · have hbe : (d.id == c) = true := by simp [hd]
      simp [countId, List.filter_cons, hbe] at h
    · have hbe : (d.id == c) = false := by simp [hd]
      have h' : countId rest c = 0 := by
        simpa [countId, List.filter_cons, hbe] using h
      simp [upsertCashout, hd, List.filter_cons, hbe, ih h']

/-- Upsert into a collection whose only document with the id is d0: the
documents with that id afterwards are exactly d0 updated by the $set
payload (undefined USD keys stripped, stored USD retained). -/
theorem upsert_filter_update (cs : List CashoutDoc) (c : String) (f : CashoutFields)
    (d0 : CashoutDoc) (h : cs.filter (fun d => d.id == c) = [d0]) :
    (upsertCashout cs c f).filter (fun d => d.id == c) = [applyFieldsUpdate d0 c f] := by
  induction cs with
  | nil =>
    simp at h
  | cons d rest ih =>
    by_cases hd : d.id = c
    · have hbe : (d.id == c) = true := by simp [hd]
      rw [List.filter_cons, if_pos hbe] at h
      simp only [List.cons.injEq] at h
      obtain ⟨hd0, hrest⟩ := h
      subst hd0
      have happ : ((applyFieldsUpdate d c f).id == c) = true := by simp [applyFieldsUpdate]
      simp [upsertCashout, hd, List.filter_cons, happ, hrest]
    · have hbe : (d.id == c) = false := by simp [hd]
      rw [List.filter_cons, if_neg (by simp [hd])] at h
      simp [upsertCashout, hd, List.filter_cons, hbe, ih h]

/-- An upsert into a collection respecting the unique index leaves
exactly one document with the id. -/
theorem upsert_countId (cs : List CashoutDoc) (c : String) (f : CashoutFields)
    (hu : countId cs c ≤ 1) : countId (upsertCashout cs c f) c = 1 := by
  rcases Nat.lt_or_ge (countId cs c) 1 with h0 | h1
  · have h0' : countId cs c = 0 := by omega
    unfold countId
    rw [upsert_filter_insert cs c f h0']
    rfl
  · have h1' : countId cs c = 1 := by omega
    simp only [countId] at h1'
    obtain ⟨d0, hd0⟩ := List.length_eq_one.mp h1'
    unfold countId
    rw [upsert_filter_update cs c f d0 hd0]
    rfl

/-- Membership in an upserted collection: every document is an untouched
old one, the fresh insert, or an old one updated by the $set payload. -/
theorem mem_upsert (cs : List CashoutDoc) (c : String) (f : CashoutFields)
    (d : CashoutDoc) :
    d ∈ upsertCashout cs c f →
      d ∈ cs ∨ d = applyFields c f ∨ ∃ d0, d0 ∈ cs ∧ d = applyFieldsUpdate d0 c f := by
  induction cs with
  | nil =>
    intro h
    simp only [upsertCashout] at h
    exact Or.inr (Or.inl (List.mem_singleton.mp h))
  | cons e rest ih =>
    intro h
    simp only [upsertCashout] at h
    by_cases he : e.id = c
    · rw [if_pos he] at h
      rcases List.mem_cons.mp h with h | h
      · exact Or.inr (Or.inr ⟨e, List.mem_cons_self e rest, h⟩)
      · exact Or.inl (List.mem_cons_of_mem _ h)
    · rw [if_neg he] at h
      rcases List.mem_cons.mp h with h | h
      · exact Or.inl (by simp [h])
      · rcases ih h with h' | h' | ⟨d0, hd0, hde⟩
        · exact Or.inl (List.mem_cons_of_mem _ h')
        · exact Or.inr (Or.inl h')
        · exact Or.inr (Or.inr ⟨d0, List.mem_cons_of_mem _ hd0, hde⟩)

/-- A valid request's effect on the cashouts collection is exactly the
upsert of its computed fields under its cashout id. -/
theorem ingest_valid_cashouts (now : ℤ) (db : DB) (r : IngestReq) (c : String)
    (hv : reqValid r = true) (hc : reqCashoutId r = some c) :
    (ingest now db r).2.cashouts = upsertCashout db.cashouts c (reqFields now r) := by
  simp [ingest, hv, hc]

/-- C5 (amended): ingesting two valid payloads with the same cashout id
leaves exactly one document with that id; starting from a store without
that id, the final document is the first payload's insert updated by the
second payload's $set fields, whose USD keys overwrite when supplied and
are stripped when undefined, retaining the stored values. -/
theorem C5_idempotent_upsert (now1 now2 : ℤ) (db : DB) (r1 r2 : IngestReq) (c : String)
    (h1 : reqCashoutId r1 = some c) (h2 : reqCashoutId r2 = some c)
    (hv1 : reqValid r1 = true) (hv2 : reqValid r2 = true) :
    (countId db.cashouts c ≤ 1 →
        countId (ingest now2 (ingest now1 db r1).2 r2).2.cashouts c = 1)
    ∧ (countId db.cashouts c = 0 →
        (ingest now2 (ingest now1 db r1).2 r2).2.cashouts.filter (fun d => d.id == c)
          = [applyFieldsUpdate (applyFields c (reqFields now1 r1)) c (reqFields now2 r2)])
    ∧ (∀ old : CashoutDoc,
        (applyFieldsUpdate old c (reqFields now2 r2)).amountUSD
            = jsCoal (reqFields now2 r2).amountUSD old.amountUSD
        ∧ (applyFieldsUpdate old c (reqFields now2 r2)).payoutUSD
            = jsCoal (reqFields now2 r2).payoutUSD old.payoutUSD) := by
  refine ⟨?_, ?_, fun old => ⟨rfl, rfl⟩⟩
  · intro hu
    have hu1 : countId (ingest now1 db r1).2.cashouts c = 1 := by
      unfold countId
      rw [ingest_valid_cashouts now1 db r1 c hv1 h1]
      exact upsert_countId db.cashouts c (reqFields now1 r1) hu
    unfold countId
    rw [ingest_valid_cashouts now2 (ingest now1 db r1).2 r2 c hv2 h2]
    exact upsert_countId _ c (reqFields now2 r2) (by omega)
  · intro h0
    have hf1 : (ingest now1 db r1).2.cashouts.filter (fun d => d.id == c)
        = [applyFields c (reqFields now1 r1)] := by
      rw [ingest_valid_cashouts now1 db r1 c hv1 h1]
      exact upsert_filter_insert db.cashouts c (reqFields now1 r1) h0
    rw [ingest_valid_cashouts now2 (ingest now1 db r1).2 r2 c hv2 h2]
    exact upsert_filter_update _ c (reqFields now2 r2) _ hf1

/-- First ingestion payload used by the C5 witness. -/
def c5Req1 : IngestReq :=
  IngestReq.nested
    { minesCashout := some
        { id := some "x", game := some "Mines", currency := some "LTC"
        , amount := some 1, payout := some 2
        , amountMultiplier := some 1, payoutMultiplier := some 2
        , amountUSD := none, payoutUSD := none, updatedAt := none }
    , user := some { id := some "a", name := some "A" }
    , raw := "b1" }

/-- Second ingestion payload used by the C5 witness. -/
def c5Req2 : IngestReq :=
  IngestReq.nested
    { minesCashout := some
        { id := some "x", game := some "Mines", currency := some "LTC"
        , amount := some 3, payout := some 9
        , amountMultiplier := some 3, payoutMultiplier := some 3
        , amountUSD := none, payoutUSD := none, updatedAt := none }
    , user := some { id := some "a", name := some "A" }
    , raw := "b2" }

/-- Witness for C5: two nested payloads with id x leave exactly one
record with that id, the insert updated by the second payload. -/
theorem C5_idempotent_upsert_witness :
    ((ingest 1 (ingest 0 { accounts := [], cashouts := [] } c5Req1).2 c5Req2).2.cashouts.filter
        (fun d => d.id == "x"))
      = [applyFieldsUpdate (applyFields "x" (reqFields 0 c5Req1)) "x" (reqFields 1 c5Req2)] := by
  exact (C5_idempotent_upsert 0 1 { accounts := [], cashouts := [] } c5Req1 c5Req2 "x"
    (by decide) (by decide) (by decide) (by decide)).2.1 (by decide)

/-- First counterexample payload for C5: carries stored USD values. -/
def c5cReq1 : IngestReq :=
  IngestReq.nested
    { minesCashout := some
        { id := some "x", game := some "mines", currency := some "ltc"
        , amount := some 1, payout := some 2
        , amountMultiplier := some 1, payoutMultiplier := some 2
        , amountUSD := some 4, payoutUSD := some 3, updatedAt := none }
    , user := some { id := some "a", name := some "A" }
    , raw := "b1" }

/-- Second counterexample payload for C5: same id, no USD values. -/
def c5cReq2 : IngestReq :=
  IngestReq.nested
    { minesCashout := some
        { id := some "x", game := some "mines", currency := some "ltc"
        , amount := some 5, payout := some 9
        , amountMultiplier := some 1, payoutMultiplier := some 2
        , amountUSD := none, payoutUSD := none, updatedAt := none }
    , user := some { id := some "a", name := some "A" }
    , raw := "b2" }

/-- Counterexample to C5 as stated: when the second payload omits the USD
fields, the stored record keeps the first payload's payoutUSD = 3 (the
undefined $set key is stripped), so its fields do not all reflect the
second payload's values. -/
theorem C5_counterexample :
    ((ingest 1 (ingest 0 { accounts := [], cashouts := [] } c5cReq1).2 c5cReq2).2.cashouts.map
        CashoutDoc.payoutUSD) = [some 3]
    ∧ (reqFields 1 c5cReq2).payoutUSD = none
    ∧ ¬ ((ingest 1 (ingest 0 { accounts := [], cashouts := [] } c5cReq1).2 c5cReq2).2.cashouts
        = [applyFields "x" (reqFields 1 c5cReq2)]) := by
  refine ⟨by decide, by decide, by decide⟩

/-- C7: validation failure is atomic.  A request missing a truthy cashout
id or account id is answered with a 400 and the store is unchanged: no
account upsert and no cashout upsert happen. -/
theorem C7_validation_atomic (now : ℤ) (db : DB) (r : IngestReq)
    (h : strTruthy (reqCashoutId r) = false ∨ strTruthy (reqAccountId r) = false) :
    ingest now db r = (IngestResult.badRequest, db) := by
  have hv : reqValid r = false := by
    unfold reqValid
    rcases h with h | h <;> simp [h]
  simp [ingest, hv]

/-- Payload with a missing user id used by the C7 witness. -/
def c7Req : IngestReq :=
  IngestReq.nested
    { minesCashout := some
        { id := some "x", game := none, currency := none
        , amount := none, payout := none, amountMultiplier := none
        , payoutMultiplier := none, amountUSD := none, payoutUSD := none
        , updatedAt := none }
    , user := none
    , raw := "b" }

/-- Witness for C7: a nested payload with no user id is rejected and the
store stays empty. -/
theorem C7_validation_atomic_witness :
    ingest 0 { accounts := [], cashouts := [] } c7Req
      = (IngestResult.badRequest, { accounts := [], cashouts := [] }) := by
  exact C7_validation_atomic 0 { accounts := [], cashouts := [] } c7Req (Or.inr (by decide))

end Stake

namespace Stake

/-- C9 (amended): after every ingestion the crypto amount and payout of
every written record are present numeric values (and presence is
preserved for untouched records); a freshly inserted record's USD fields
are exactly the client-supplied numbers, whose sign the handlers do not
constrain; on an update, a USD field supplied as a number overwrites the
stored one, and an omitted USD field retains the previously stored
value. -/
theorem C9_crypto_present_usd_as_supplied :
    (∀ (now : ℤ) (db : DB) (r : IngestReq),
        (∀ d ∈ db.cashouts, d.amount.isSome ∧ d.payout.isSome) →
        ∀ d ∈ (ingest now db r).2.cashouts, d.amount.isSome ∧ d.payout.isSome)
    ∧ (∀ (now : ℤ) (db : DB) (r : IngestReq) (c : String),
        reqValid r = true → reqCashoutId r = some c → countId db.cashouts c = 0 →
        (ingest now db r).2.cashouts.filter (fun d => d.id == c)
          = [applyFields c (reqFields now r)]
        ∧ (applyFields c (reqFields now r)).amount = some (reqFields now r).amount
        ∧ (applyFields c (reqFields now r)).payout = some (reqFields now r).payout
        ∧ (applyFields c (reqFields now r)).amountUSD = (reqFields now r).amountUSD
        ∧ (applyFields c (reqFields now r)).payoutUSD = (reqFields now r).payoutUSD)
    ∧ (∀ (now : ℤ) (db : DB) (r : IngestReq) (c : String) (d0 : CashoutDoc),
        reqValid r = true → reqCashoutId r = some c →
        db.cashouts.filter (fun d => d.id == c) = [d0] →
        (ingest now db r).2.cashouts.filter (fun d => d.id == c)
          = [applyFieldsUpdate d0 c (reqFields now r)]
        ∧ (applyFieldsUpdate d0 c (reqFields now r)).amount = some (reqFields now r).amount
        ∧ (applyFieldsUpdate d0 c (reqFields now r)).payout = some (reqFields now r).payout
        ∧ (applyFieldsUpdate d0 c (reqFields now r)).amountUSD
            = jsCoal (reqFields now r).amountUSD d0.amountUSD
        ∧ (applyFieldsUpdate d0 c (reqFields now r)).payoutUSD
            = jsCoal (reqFields now r).payoutUSD d0.payoutUSD) := by
  refine ⟨?_, ?_, ?_⟩
  · intro now db r hP
    by_cases hv : reqValid r = true
    · have hcs : (ingest now db r).2.cashouts
          = upsertCashout db.cashouts ((reqCashoutId r).getD "") (reqFields now r) := by
        simp [ingest, hv]
      intro d hd
      rw [hcs] at hd
      rcases mem_upsert _ _ _ d hd with hmem | heq | ⟨d0, _, heq⟩
      · exact hP d hmem
      · rw [heq]
        exact ⟨rfl, rfl⟩
      · rw [heq]
        exact ⟨rfl, rfl⟩
    · have hcs : (ingest now db r).2 = db := by
        simp [ingest, hv]
      intro d hd
      rw [hcs] at hd
      exact hP d hd
  · intro now db r c hv hc h0
    refine ⟨?_, rfl, rfl, rfl, rfl⟩
    rw [ingest_valid_cashouts now db r c hv hc]
    exact upsert_filter_insert _ c _ h0
  · intro now db r c d0 hv hc hf
    refine ⟨?_, rfl, rfl, rfl, rfl⟩
    rw [ingest_valid_cashouts now db r c hv hc]
    exact upsert_filter_update _ c _ d0 hf

/-- Payload carrying a negative client-supplied payoutUSD, used to refute
the never-negative part of C9. -/
def c9NegReq : IngestReq :=
  IngestReq.nested
    { minesCashout := some
        { id := some "n", game := some "mines", currency := some "ltc"
        , amount := some 1, payout := some 2
        , amountMultiplier := some 1, payoutMultiplier := some 2
        , amountUSD := some 1, payoutUSD := some (-5), updatedAt := none }
    , user := some { id := some "a", name := some "A" }
    , raw := "b" }

/-- Counterexample to C9 as stated: an accepted ingestion stores a
negative payoutUSD, so stored USD fields are not always non-negative. -/
theorem C9_counterexample :
    ((ingest 0 { accounts := [], cashouts := [] } c9NegReq).2.cashouts.map
        CashoutDoc.payoutUSD) = [some (-5)]
    ∧ ((-5 : ℚ) < 0) := by
  constructor
  · decide
  · norm_num

/-- Payload used by the C9 witness. -/
def c9wReq : IngestReq :=
  IngestReq.nested
    { minesCashout := some
        { id := some "w", game := some "mines", currency := some "ltc"
        , amount := some 3, payout := some 4
        , amountMultiplier := some 1, payoutMultiplier := some 2
        , amountUSD := some 6, payoutUSD := some 8, updatedAt := none }
    , user := some { id := some "a", name := some "A" }
    , raw := "b" }

/-- Witness for the amended C9 at a concrete ingestion. -/
theorem C9_crypto_present_usd_as_supplied_witness :
    (ingest 0 { accounts := [], cashouts := [] } c9wReq).2.cashouts.filter
        (fun d => d.id == "w")
      = [applyFields "w" (reqFields 0 c9wReq)] := by
  exact (C9_crypto_present_usd_as_supplied.2.1 0 { accounts := [], cashouts := [] }
    c9wReq "w" (by decide) (by decide) (by decide)).1

end Stake

namespace Stake

/-- C10: normalization only rewrites amount/payout and adds the crypto
copies; every other field of the input reappears unchanged, the crypto
copies equal the numeric coercion (default 0) of the input's
amount/payout, and a null input is returned as is with the cache
untouched. -/
theorem C10_normalize_frame :
    (∀ (fetch : String → FetchResult) (now ttl : ℤ) (st : PriceCache),
        normalizeCashoutToUSD fetch now ttl st none = (none, st))
    ∧ (∀ (fetch : String → FetchResult) (now ttl : ℤ) (st : PriceCache) (d : CashoutDoc),
        (normalizeCashoutToUSD fetch now ttl st (some d)).1.map NormalizedCashout.id
            = some d.id
        ∧ (normalizeCashoutToUSD fetch now ttl st (some d)).1.map NormalizedCashout.accountId
            = some d.accountId
        ∧ (normalizeCashoutToUSD fetch now ttl st (some d)).1.map NormalizedCashout.game
            = some d.game
        ∧ (normalizeCashoutToUSD fetch now ttl st (some d)).1.map NormalizedCashout.currency
            = some d.currency
        ∧ (normalizeCashoutToUSD fetch now ttl st
              (some d)).1.map NormalizedCashout.amountMultiplier = some d.amountMultiplier
        ∧ (normalizeCashoutToUSD fetch now ttl st
              (some d)).1.map NormalizedCashout.payoutMultiplier = some d.payoutMultiplier
        ∧ (normalizeCashoutToUSD fetch now ttl st (some d)).1.map NormalizedCashout.amountUSD
            = some d.amountUSD
        ∧ (normalizeCashoutToUSD fetch now ttl st (some d)).1.map NormalizedCashout.payoutUSD
            = some d.payoutUSD
        ∧ (normalizeCashoutToUSD fetch now ttl st (some d)).1.map NormalizedCashout.updatedAt
            = some d.updatedAt
        ∧ (normalizeCashoutToUSD fetch now ttl st (some d)).1.map NormalizedCashout.capturedAt
            = some d.capturedAt
        ∧ (normalizeCashoutToUSD fetch now ttl st (some d)).1.map NormalizedCashout.rawJson
            = some d.rawJson
        ∧ (normalizeCashoutToUSD fetch now ttl st (some d)).1.map NormalizedCashout.amountCrypto
            = some (d.amount.getD 0)
        ∧ (normalizeCashoutToUSD fetch now ttl st (some d)).1.map NormalizedCashout.payoutCrypto
            = some (d.payout.getD 0)) := by
  constructor
  · intro fetch now ttl st
    rfl
  · intro fetch now ttl st d
    obtain ⟨i, aid, g, cur, am, po, aM, pM, aU, pU, upd, cap, raw⟩ := d
    rcases aU with _ | a <;> rcases pU with _ | p <;>
      rcases hr : (getUsdRate fetch now ttl st cur).1 with _ | r <;>
      simp [normalizeCashoutToUSD, mkNorm, hr]

end Stake

namespace Stake

/-- The whitespace parseInt strips before reading a number. -/
def jsWhitespace (c : Char) : Bool :=
  c == ' ' || c == '\t' || c == '\n' || c == '\r'

/-- Value of the longest leading run of decimal digits, absent when there
is none. -/
def leadingDigitsVal (cs : List Char) : Option Nat :=
  let ds := cs.takeWhile Char.isDigit
  if ds.isEmpty then none
  else some (ds.foldl (fun acc ch => acc * 10 + (ch.toNat - 48)) 0)

/-- JS parseInt(s, 10): skip leading whitespace, read an optional sign
and then the longest digit run; none stands for NaN. -/
def parseInt10 (s : String) : Option ℤ :=
  match s.data.dropWhile jsWhitespace with
  | [] => none
  | ch :: rest =>
    if ch = '-' then (leadingDigitsVal rest).map (fun n => -(n : ℤ))
    else if ch = '+' then (leadingDigitsVal rest).map (fun n => (n : ℤ))
    else (leadingDigitsVal (ch :: rest)).map (fun n => (n : ℤ))

/-- Math.max(1, parseInt(req.query.page ?? "1", 10)); none stands for
NaN, which Math.max propagates. -/
def pageEff (q : Option String) : Option ℤ :=
  (parseInt10 (q.getD "1")).map (fun p => max 1 p)

/-- Math.min(200, Math.max(1, parseInt(req.query.size ?? "50", 10))) of
the paginated cashouts route. -/
def cashoutsSizeEff (q : Option String) : Option ℤ :=
  (parseInt10 (q.getD "50")).map (fun s => min 200 (max 1 s))

/-- Math.min(50, Math.max(1, parseInt(req.query.size ?? "10", 10))) of
the leaderboard route. -/
def leaderboardSizeEff (q : Option String) : Option ℤ :=
  (parseInt10 (q.getD "10")).map (fun s => min 50 (max 1 s))

/-- C8 (amended): whenever the page/size query values are absent or parse
to a number, the effective page is at least 1 and the effective sizes are
clamped into [1, 200] and [1, 50]; page=0 becomes 1 and size=500 becomes
200; a value parseInt cannot read propagates NaN instead of a clamped
number. -/
theorem C8_pagination_bounds :
    (∀ (q : Option String) (p : ℤ), parseInt10 (q.getD "1") = some p →
        ∃ e, pageEff q = some e ∧ 1 ≤ e)
    ∧ (∀ (q : Option String) (s : ℤ), parseInt10 (q.getD "50") = some s →
        ∃ e, cashoutsSizeEff q = some e ∧ 1 ≤ e ∧ e ≤ 200)
    ∧ (∀ (q : Option String) (s : ℤ), parseInt10 (q.getD "10") = some s →
        ∃ e, leaderboardSizeEff q = some e ∧ 1 ≤ e ∧ e ≤ 50)
    ∧ pageEff (some "0") = some 1
    ∧ cashoutsSizeEff (some "500") = some 200
    ∧ (∀ q : Option String, parseInt10 (q.getD "50") = none → cashoutsSizeEff q = none) := by
  refine ⟨?_, ?_, ?_, by decide, by decide, ?_⟩
  · intro q p h
    refine ⟨max 1 p, by simp [pageEff, h], le_max_left 1 p⟩
  · intro q s h
    refine ⟨min 200 (max 1 s), by simp [cashoutsSizeEff, h], ?_, min_le_left _ _⟩
    exact le_min (by norm_num) (le_max_left 1 s)
  · intro q s h
    refine ⟨min 50 (max 1 s), by simp [leaderboardSizeEff, h], ?_, min_le_left _ _⟩
    exact le_min (by norm_num) (le_max_left 1 s)
  · intro q h
    simp [cashoutsSizeEff, h]

/-- Witness for C8: size=500 is clamped into [1, 200] (to exactly 200). -/
theorem C8_pagination_bounds_witness :
    ∃ e, cashoutsSizeEff (some "500") = some e ∧ 1 ≤ e ∧ e ≤ 200 := by
  exact C8_pagination_bounds.2.1 (some "500") 500 (by decide)

/-- Counterexample to C8 as stated: for the request size=zz the effective
size is NaN, which is not clamped into [1, 200]. -/
theorem C8_counterexample :
    cashoutsSizeEff (some "zz") = none
    ∧ ¬ ∃ e : ℤ, cashoutsSizeEff (some "zz") = some e ∧ 1 ≤ e ∧ e ≤ 200 := by
  have h0 : cashoutsSizeEff (some "zz") = none := by decide
  refine ⟨h0, ?_⟩
  rintro ⟨e, he, _⟩
  rw [h0] at he
  cases he

end Stake

namespace Stake

/-- JS Math.round: round to the nearest integer, halves toward positive
infinity. -/
def jsRound (q : ℚ) : ℤ :=
  Rat.floor (q + 1/2)

/-- Math.round(x * 100) / 100, the 2-decimal display rounding. -/
def round2 (q : ℚ) : ℚ :=
  ((jsRound (q * 100) : ℚ)) / 100

/-- round2 through the floor function, for evaluation. -/
theorem round2_def_floor (q : ℚ) : round2 q = ((⌊q * 100 + 1/2⌋ : ℤ) : ℚ) / 100 :=
  rfl

/-- Mongo $max over the present values of a field: none when no document
contributes one. -/
def optMax (l : List ℚ) : Option ℚ :=
  l.foldl (fun acc x =>
    match acc with
    | none => some x
    | some m => some (max m x)) none

/-- The documents the summary aggregation matches for an account. -/
def acctMatched (db : DB) (accId : String) : List CashoutDoc :=
  db.cashouts.filter (fun d => d.accountId == some accId)

/-- $sum of payoutUSD over the matched documents (missing values are
skipped, the empty aggregation gives 0). -/
def acctPayoutUSDSum (db : DB) (accId : String) : ℚ :=
  ((acctMatched db accId).filterMap CashoutDoc.payoutUSD).sum

/-- $sum of amountUSD over the matched documents. -/
def acctAmountUSDSum (db : DB) (accId : String) : ℚ :=
  ((acctMatched db accId).filterMap CashoutDoc.amountUSD).sum

/-- $sum of the crypto payout over the matched documents. -/
def acctPayoutCryptoSum (db : DB) (accId : String) : ℚ :=
  ((acctMatched db accId).filterMap CashoutDoc.payout).sum

/-- $sum of the crypto amount over the matched documents. -/
def acctAmountCryptoSum (db : DB) (accId : String) : ℚ :=
  ((acctMatched db accId).filterMap CashoutDoc.amount).sum

/-- $last of currency over the matched documents, in document order. -/
def acctLastCurrency (db : DB) (accId : String) : Option String :=
  (acctMatched db accId).getLast?.bind CashoutDoc.currency

/-- t?.lastCurrency || "ltc": the symbol the fallback re-rating uses. -/
def acctFallbackSymbol (db : DB) (accId : String) : Option String :=
  jsTruthyOr (acctLastCurrency db accId) (some "ltc")

/-- The totals object of GET /api/accounts/:id/summary. -/
structure Totals where
  totalBets : Nat
  maxMult : ℚ
  totalPayout : ℚ
  totalAmountUSD : ℚ
deriving DecidableEq

/-- The totals computation of the summary route: aggregate stored USD
sums, fall back to crypto sums times one live rate when a USD total is
zero or no records exist, and round both USD totals to 2 decimals. -/
def summarize (fetch : String → FetchResult) (now ttl : ℤ) (st : PriceCache)
    (db : DB) (accId : String) : Totals × PriceCache :=
  let matched := acctMatched db accId
  let tp0 := acctPayoutUSDSum db accId
  let ta0 := acctAmountUSDSum db accId
  let maxM : ℚ := (optMax (matched.filterMap CashoutDoc.payoutMultiplier)).getD 0
  if matched = [] ∨ tp0 = 0 ∨ ta0 = 0 then
    match getUsdRate fetch now ttl st (acctFallbackSymbol db accId) with
    | (some r, st1, _) =>
      ({ totalBets := matched.length, maxMult := maxM
       , totalPayout := round2 (if tp0 = 0 then acctPayoutCryptoSum db accId * r else tp0)
       , totalAmountUSD := round2 (if ta0 = 0 then acctAmountCryptoSum db accId * r else ta0) }
      , st1)
    | (none, st1, _) =>
      ({ totalBets := matched.length, maxMult := maxM
       , totalPayout := round2 tp0, totalAmountUSD := round2 ta0 }, st1)
  else
    ({ totalBets := matched.length, maxMult := maxM
     , totalPayout := round2 tp0, totalAmountUSD := round2 ta0 }, st)

/-- C6 (amended): whenever a stored USD total is zero (also when no
records exist) and a rate r is available for the fallback symbol — the
currency of the last matched record in document order, defaulting to
ltc — each zero USD total becomes its crypto sum times r while a
non-zero total keeps its stored sum; and both final USD totals are
always multiples of 1/100, i.e. rounded to 2 decimals. -/
theorem C6_summary_fallback :
    (∀ (fetch : String → FetchResult) (now ttl : ℤ) (st : PriceCache)
        (db : DB) (accId : String) (r : ℚ),
        acctPayoutUSDSum db accId = 0 →
        (getUsdRate fetch now ttl st (acctFallbackSymbol db accId)).1 = some r →
        (summarize fetch now ttl st db accId).1.totalPayout
            = round2 (acctPayoutCryptoSum db accId * r))
    ∧ (∀ (fetch : String → FetchResult) (now ttl : ℤ) (st : PriceCache)
        (db : DB) (accId : String) (r : ℚ),
        acctAmountUSDSum db accId = 0 →
        (getUsdRate fetch now ttl st (acctFallbackSymbol db accId)).1 = some r →
        (summarize fetch now ttl st db accId).1.totalAmountUSD
            = round2 (acctAmountCryptoSum db accId * r))
    ∧ (∀ (fetch : String → FetchResult) (now ttl : ℤ) (st : PriceCache)
        (db : DB) (accId : String) (r : ℚ),
        ¬ acctPayoutUSDSum db accId = 0 → acctAmountUSDSum db accId = 0 →
        (getUsdRate fetch now ttl st (acctFallbackSymbol db accId)).1 = some r →
        (summarize fetch now ttl st db accId).1.totalPayout
            = round2 (acctPayoutUSDSum db accId))
    ∧ (∀ (fetch : String → FetchResult) (now ttl : ℤ) (st : PriceCache)
        (db : DB) (accId : String) (r : ℚ),
        ¬ acctAmountUSDSum db accId = 0 → acctPayoutUSDSum db accId = 0 →
        (getUsdRate fetch now ttl st (acctFallbackSymbol db accId)).1 = some r →
        (summarize fetch now ttl st db accId).1.totalAmountUSD
            = round2 (acctAmountUSDSum db accId))
    ∧ (∀ (fetch : String → FetchResult) (now ttl : ℤ) (st : PriceCache)
        (db : DB) (accId : String), ∃ k m : ℤ,
        (summarize fetch now ttl st db accId).1.totalPayout = (k : ℚ) / 100
        ∧ (summarize fetch now ttl st db accId).1.totalAmountUSD = (m : ℚ) / 100) := by
  refine ⟨?_, ?_, ?_, ?_, ?_⟩
  · intro fetch now ttl st db accId r hP hr
    rcases hE : getUsdRate fetch now ttl st (acctFallbackSymbol db accId) with ⟨v, st1, fl⟩
    have hv : v = some r := by
      rw [hE] at hr
      exact hr
    subst hv
    simp only [summarize]
    rw [if_pos (Or.inr (Or.inl hP)), hE]
    simp [hP]
  · intro fetch now ttl st db accId r hA hr
    rcases hE : getUsdRate fetch now ttl st (acctFallbackSymbol db accId) with ⟨v, st1, fl⟩
    have hv : v = some r := by
      rw [hE] at hr
      exact hr
    subst hv
    simp only [summarize]
    rw [if_pos (Or.inr (Or.inr hA)), hE]
    simp [hA]
  · intro fetch now ttl st db accId r hP hA hr
    rcases hE : getUsdRate fetch now ttl st (acctFallbackSymbol db accId) with ⟨v, st1, fl⟩
    have hv : v = some r := by
      rw [hE] at hr
      exact hr
    subst hv
    simp only [summarize]
    rw [if_pos (Or.inr (Or.inr hA)), hE]
    simp [hP]
  · intro fetch now ttl st db accId r hA hP hr
    rcases hE : getUsdRate fetch now ttl st (acctFallbackSymbol db accId) with ⟨v, st1, fl⟩
    have hv : v = some r := by
      rw [hE] at hr
      exact hr
    subst hv
    simp only [summarize]
    rw [if_pos (Or.inr (Or.inl hP)), hE]
    simp [hA]
  · intro fetch now ttl st db accId
    rcases hE : getUsdRate fetch now ttl st (acctFallbackSymbol db accId) with ⟨v, st1, fl⟩
    rcases v with _ | r <;>
      (simp only [summarize]; rw [hE]; split) <;>
      exact ⟨_, _, rfl, rfl⟩

/-- One record of the C6 witness store. -/
def c6wDoc (i : String) (pay : ℚ) : CashoutDoc :=
  { id := i, accountId := some "a", game := some "mines", currency := some "ltc"
  , amount := some 1, payout := some pay
  , amountMultiplier := some 1, payoutMultiplier := some 2
  , amountUSD := none, payoutUSD := none
  , updatedAt := none, capturedAt := 0, rawJson := "r" }

/-- The C6 witness store: three records with crypto payouts 1, 2, 3 and
no stored USD. -/
def c6wDb : DB :=
  { accounts := [], cashouts := [c6wDoc "p" 1, c6wDoc "q" 2, c6wDoc "s" 3] }

/-- A provider quoting litecoin at 10 USD. -/
def c6wFetch : String → FetchResult := fun pid =>
  if pid = "litecoin" then FetchResult.fieldValue (some 10)
  else FetchResult.fieldValue none

/-- Witness for C6: crypto payouts [1,2,3] at rate 10 total 60 USD. -/
theorem C6_summary_fallback_witness :
    (summarize c6wFetch 0 60000 [] c6wDb "a").1.totalPayout = 60 := by
  have hpc : acctPayoutCryptoSum c6wDb "a" = 6 := by
    have hfm : (acctMatched c6wDb "a").filterMap CashoutDoc.payout = [1, 2, 3] := by decide
    unfold acctPayoutCryptoSum
    rw [hfm]
    norm_num [List.sum_cons, List.sum_nil]
  have h := C6_summary_fallback.1 c6wFetch 0 60000 [] c6wDb "a" 10
    (by decide) (by decide)
  rw [h, hpc, round2_def_floor]
  norm_num

/-- The currency of the record with the largest capture timestamp: the
reading of the claim's words, stated for comparison with the code's
document-order choice. -/
def mostRecentlyCapturedCurrency (docs : List CashoutDoc) : Option String :=
  (docs.foldl (fun acc d =>
    match acc with
    | none => some d
    | some m => if m.capturedAt ≤ d.capturedAt then some d else some m) none).bind
    CashoutDoc.currency

/-- A nested ingestion payload used to build the C6 counterexample store. -/
def c6cReq (cid cur : String) (pay : ℚ) (rw : String) : IngestReq :=
  IngestReq.nested
    { minesCashout := some
        { id := some cid, game := some "mines", currency := some cur
        , amount := some 1, payout := some pay
        , amountMultiplier := some 1, payoutMultiplier := some 2
        , amountUSD := none, payoutUSD := none, updatedAt := none }
    , user := some { id := some "a", name := some "A" }
    , raw := rw }

/-- The C6 counterexample store, reached through the handlers: ingest id
x (ltc) at time 0, id y (btc) at time 10, then id x again (eth) at time
20 — the re-ingested record keeps its position but now has the newest
capture time. -/
def c6cDb : DB :=
  (ingest 20
    (ingest 10
      (ingest 0 { accounts := [], cashouts := [] } (c6cReq "x" "ltc" 1 "r1")).2
      (c6cReq "y" "btc" 2 "r2")).2
    (c6cReq "x" "eth" 3 "r3")).2

/-- A provider quoting bitcoin at 7 USD and ethereum at 5 USD. -/
def c6cFetch : String → FetchResult := fun pid =>
  if pid = "bitcoin" then FetchResult.fieldValue (some 7)
  else if pid = "ethereum" then FetchResult.fieldValue (some 5)
  else FetchResult.fieldValue none

/-- Counterexample to C6 as stated: the fallback rate comes from the last
record in document order (btc at 7) and yields 35, while the most
recently captured record's currency (eth at 5) would give 25. -/
theorem C6_counterexample :
    (summarize c6cFetch 30 60000 [] c6cDb "a").1.totalPayout = 35
    ∧ mostRecentlyCapturedCurrency (acctMatched c6cDb "a") = some "eth"
    ∧ (getUsdRate c6cFetch 30 60000 [] (some "eth")).1 = some 5
    ∧ round2 (acctPayoutCryptoSum c6cDb "a" * 5) = 25
    ∧ (35 : ℚ) ≠ 25 := by
  have hm0 : acctPayoutUSDSum c6cDb "a" = 0 := by decide
  have hfm : (acctMatched c6cDb "a").filterMap CashoutDoc.payout = [3, 2] := by decide
  have hpc : acctPayoutCryptoSum c6cDb "a" = 5 := by
    unfold acctPayoutCryptoSum
    rw [hfm]
    norm_num [List.sum_cons, List.sum_nil]
  have hcond : acctMatched c6cDb "a" = [] ∨ acctPayoutUSDSum c6cDb "a" = 0
      ∨ acctAmountUSDSum c6cDb "a" = 0 := Or.inr (Or.inl hm0)
  have hrate : getUsdRate c6cFetch 30 60000 [] (acctFallbackSymbol c6cDb "a")
      = (some 7, [("btc", 7, 30)], true) := by decide
  refine ⟨?_, by decide, by decide, ?_, by norm_num⟩
  · simp only [summarize]
    rw [if_pos hcond, hrate]
    show round2 (if acctPayoutUSDSum c6cDb "a" = 0
        then acctPayoutCryptoSum c6cDb "a" * 7 else acctPayoutUSDSum c6cDb "a") = 35
    rw [if_pos hm0, hpc, round2_def_floor]
    norm_num
  · rw [hpc, round2_def_floor]
    norm_num

end Stake
